import Mathlib

/-!
Verification development for the petrosa-socket-client streaming core.

The definitions below are a shallow embedding of the Python source:
`socket_client/core/client.py` (classifier, processor, start/stop,
reconnection supervisor, counters, subscribe control message),
`socket_client/utils/circuit_breaker.py` (AsyncCircuitBreaker) and
`socket_client/models/message.py` (WebSocketMessage envelope and the
`create_message` dispatch).  Machine integers are modelled as `Nat`/`Int`,
wall-clock instants as explicit numeric parameters, and fallible code as
`Option`.
-/

namespace SocketClient

/-- Split a character list on a separator character; like Python
`str.split(sep)` for a one-character separator.  `acc` holds the current
field, reversed. -/
def splitOnCharAux (sep : Char) : List Char → List Char → List (List Char)
  | [], acc => [acc.reverse]
  | c :: cs, acc =>
    if c = sep then acc.reverse :: splitOnCharAux sep cs []
    else splitOnCharAux sep cs (c :: acc)

/-- Split a character list on a separator character. -/
def splitOnChar (sep : Char) (l : List Char) : List (List Char) :=
  splitOnCharAux sep l []

/-- Whether `p` is a prefix of `l`, as a Bool. -/
def isPrefixList : List Char → List Char → Bool
  | [], _ => true
  | _ :: _, [] => false
  | a :: as, b :: bs => a = b && isPrefixList as bs

/-- Whether `needle` occurs as a contiguous sublist of `hay`. -/
def containsSub (needle : List Char) : List Char → Bool
  | [] => isPrefixList needle []
  | c :: t => isPrefixList needle (c :: t) || containsSub needle t

/-- Python `needle in hay` substring test (used by `create_message` and by
the depth-like judgement on stream identifiers). -/
def containsSubstr (hay needle : String) : Bool :=
  containsSub needle.data hay.data

/-- Python `str.lower()`. -/
def strToLower (s : String) : String :=
  String.mk (s.data.map Char.toLower)

/-- Python `c in s` for a single character `c`. -/
def strContainsChar (s : String) (c : Char) : Bool :=
  s.data.contains c

/-- Python `s.split("@")`. -/
def strSplitAt (s : String) : List String :=
  (splitOnChar '@' s.data).map String.mk

/-- The fields of a decoded Binance frame that
`BinanceWebSocketClient._determine_stream_name` inspects: the event-type
field `"e"`, the symbol field `"s"`, and presence of the depth-snapshot
signature keys `"lastUpdateId"`, `"bids"`, `"asks"`.  A field of type
`Option String` is `none` when the key is absent from the JSON object. -/
structure Frame where
  e : Option String
  s : Option String
  hasLastUpdateId : Bool
  hasBids : Bool
  hasAsks : Bool
  deriving DecidableEq, Repr

/-- Shallow embedding of `_determine_stream_name` (client.py lines 383-434).
`data.get("e", "")` becomes `f.e.getD ""`; Python string truthiness becomes
a `≠ ""` test; `"@" in first_stream` becomes `strContainsChar first '@'`;
`first_stream.split("@")[0]` becomes `(strSplitAt first).headD ""`.
Falling out of the depth branch continues to the event-type mapping
exactly as the Python control flow does. -/
def determineStreamName (streams : List String) (f : Frame) : Option String :=
  let event_type := f.e.getD ""
  let symbol := f.s.getD ""
  let depthInferred : Option String :=
    if f.hasLastUpdateId && f.hasBids && f.hasAsks then
      if symbol ≠ "" then
        some (strToLower symbol ++ "@depth20@100ms")
      else
        match streams with
        | first :: _ =>
          if strContainsChar first '@' then
            some ((strSplitAt first).headD "" ++ "@depth20@100ms")
          else none
        | [] => none
    else none
  match depthInferred with
  | some r => some r
  | none =>
    if event_type = "" || symbol = "" then none
    else if event_type = "trade" then some (strToLower symbol ++ "@trade")
    else if event_type = "24hrTicker" then some (strToLower symbol ++ "@ticker")
    else if event_type = "depthUpdate" then
      some (strToLower symbol ++ "@depth20@100ms")
    else if event_type = "markPriceUpdate" then
      some (strToLower symbol ++ "@markPrice@1s")
    else if event_type = "fundingRate" then
      some (strToLower symbol ++ "@fundingRate@1s")
    else some (strToLower symbol ++ "@" ++ event_type)

/-- The event-type → stream-suffix map stated by the spec (used to state the
classifier claims; the executable source of truth is `determineStreamName`). -/
def eventSuffix (e : String) : String :=
  if e = "trade" then "@trade"
  else if e = "24hrTicker" then "@ticker"
  else if e = "depthUpdate" then "@depth20@100ms"
  else if e = "markPriceUpdate" then "@markPrice@1s"
  else if e = "fundingRate" then "@fundingRate@1s"
  else "@" ++ e

/-- A stream identifier is depth-like when it mentions an `@depth` segment
(used to state the C3 claim about "exactly one depth-like stream"). -/
def depthLike (s : String) : Bool :=
  containsSubstr s "@depth"

/-- Status of `self.nats_client` as observed by `_process_single_message`,
together with the outcome of the (external) `publish` call when it is
attempted: `absent` models `nats_client is None`, `closed` models
`nats_client.is_closed`, `openOk` a publish that returns normally, and
`openRaises` a publish that raises. -/
inductive NatsStatus where
  | absent
  | closed
  | openOk
  | openRaises
  deriving DecidableEq, Repr

/-- The two counters `_process_single_message` can touch:
`processed_messages` and `dropped_messages`. -/
structure ProcState where
  processed : Nat
  dropped : Nat
  deriving DecidableEq, Repr

/-- The observable fate of one dequeued frame in `_process_single_message`. -/
inductive MsgOutcome where
  | unclassified
  | published
  | publishFailed
  | droppedNoBroker
  deriving DecidableEq, Repr

/-- Shallow embedding of `_process_single_message` (client.py lines 323-381)
for a frame that is a JSON object (the defensive non-dict branch is not
reachable from the typed queue model).  If the classifier returns null the
frame is discarded with a warning; otherwise, when the NATS handle is
present and open, a successful publish increments `processed_messages`
while a raising publish only logs; when the handle is absent or closed the
frame is dropped and `dropped_messages` is incremented.  Errors never
propagate (the body is wrapped in a catch-all). -/
def processSingleMessage (streams : List String) (nats : NatsStatus)
    (st : ProcState) (f : Frame) : ProcState × MsgOutcome :=
  match determineStreamName streams f with
  | none => (st, .unclassified)
  | some _ =>
    match nats with
    | .openOk => ({ st with processed := st.processed + 1 }, .published)
    | .openRaises => (st, .publishFailed)
    | .absent => ({ st with dropped := st.dropped + 1 }, .droppedNoBroker)
    | .closed => ({ st with dropped := st.dropped + 1 }, .droppedNoBroker)

/-- Circuit-breaker states (circuit_breaker.py `CircuitState`). -/
inductive CircuitState where
  | closed
  | opened
  | halfOpen
  deriving DecidableEq, Repr

/-- State of an `AsyncCircuitBreaker`: configuration parameters
(`failure_threshold`, `recovery_timeout`, both Python ints) plus the
mutable fields `state`, `failure_count` and `last_failure_time`.
`failure_count` is a `Nat` because the source only sets it to 0 and
increments it.  Times are modelled as integers. -/
structure Breaker where
  failureThreshold : Int
  recoveryTimeout : Int
  state : CircuitState
  failureCount : Nat
  lastFailureTime : Int
  deriving DecidableEq, Repr

/-- A freshly constructed breaker (`AsyncCircuitBreaker.__init__`):
CLOSED, `failure_count = 0`, `last_failure_time = 0`. -/
def mkBreaker (threshold recovery : Int) : Breaker :=
  { failureThreshold := threshold
    recoveryTimeout := recovery
    state := .closed
    failureCount := 0
    lastFailureTime := 0 }

/-- Outcome of invoking the wrapped callable: it returns normally, raises
an exception matched by `expected_exception`, or raises an unmatched one. -/
inductive CallOutcome where
  | success
  | matchedFailure
  | unmatchedFailure
  deriving DecidableEq, Repr

/-- The OPEN-state gate at the top of `AsyncCircuitBreaker.call`:
returns the (possibly HALF_OPEN) breaker and whether the wrapped callable
is invoked (`false` models raising `CircuitBreakerOpenError`). -/
def preCall (b : Breaker) (now : Int) : Breaker × Bool :=
  match b.state with
  | .opened =>
    if now - b.lastFailureTime ≥ b.recoveryTimeout then
      ({ b with state := .halfOpen }, true)
    else (b, false)
  | _ => (b, true)

/-- `AsyncCircuitBreaker._on_success`: HALF_OPEN transitions to CLOSED;
`failure_count` is reset to 0 in every state. -/
def onSuccess (b : Breaker) : Breaker :=
  { b with
    state := if b.state = .halfOpen then .closed else b.state
    failureCount := 0 }

/-- `AsyncCircuitBreaker._on_failure` (circuit_breaker.py lines 116-135):
increment `failure_count`, record `last_failure_time`, and open the
breaker when `failure_count >= failure_threshold`. -/
def onFailure (b : Breaker) (now : Int) : Breaker :=
  if ((b.failureCount + 1 : Nat) : Int) ≥ b.failureThreshold then
    { b with failureCount := b.failureCount + 1, lastFailureTime := now
             state := .opened }
  else
    { b with failureCount := b.failureCount + 1, lastFailureTime := now }

/-- One `AsyncCircuitBreaker.call` at wall-clock time `now` whose wrapped
callable has outcome `o`: the OPEN gate runs first; when the callable is
not invoked (gate raises `CircuitBreakerOpenError`) no outcome is applied;
otherwise success/matched-failure/unmatched-failure are applied as in the
source. -/
def breakerCall (b : Breaker) (now : Int) (o : CallOutcome) : Breaker :=
  if (preCall b now).2 then
    match o with
    | .success => onSuccess (preCall b now).1
    | .matchedFailure => onFailure (preCall b now).1 now
    | .unmatchedFailure => (preCall b now).1
  else (preCall b now).1

/-- A sequence of `call` invocations, each with its wall-clock time and the
wrapped callable's outcome. -/
def runCalls (b : Breaker) (events : List (Int × CallOutcome)) : Breaker :=
  events.foldl (fun acc ev => breakerCall acc ev.1 ev.2) b

/-- The run flag of `BinanceWebSocketClient` as `start`/`stop` see it. -/
structure ClientState where
  isRunning : Bool
  deriving DecidableEq, Repr

/-- The externally visible steps `BinanceWebSocketClient.start` performs. -/
inductive StartAction where
  | connectNats
  | launchProcessor (i : Nat)
  | connectWebSocket
  | launchPing
  | launchHeartbeat
  deriving DecidableEq, Repr

/-- Shallow embedding of `BinanceWebSocketClient.start` (client.py lines
122-156), happy path: it sets `is_running = True` and then, with no guard
on the previous value of the run flag, dials NATS, launches
`num_processors` processor tasks, dials the WebSocket, launches the ping
task, and launches the heartbeat task when enabled.  The returned list is
the sequence of actions performed. -/
def startClient (heartbeatEnabled : Bool) (numProcessors : Nat)
    (st : ClientState) : ClientState × List StartAction :=
  ({ st with isRunning := true },
    .connectNats ::
      ((List.range numProcessors).map .launchProcessor ++
        ([.connectWebSocket, .launchPing] ++
          (if heartbeatEnabled then [.launchHeartbeat] else []))))

/-- The fields of `BinanceWebSocketClient` that `_handle_disconnection`
reads and writes: the run flag and `reconnect_attempts`. -/
structure ReconnState where
  isRunning : Bool
  reconnectAttempts : Nat
  deriving DecidableEq, Repr

/-- The reconnection loop of `_handle_disconnection` (client.py lines
548-563).  `outcomes` lists the results of the successive
`_connect_websocket` re-dial attempts (`true` = the dial returned
normally); the loop is observed for at most that many attempts.  Each
iteration first sleeps `reconnect_delay * 2 ** reconnect_attempts` (the
returned list records those sleeps, in order); a successful dial runs the
`reconnect_attempts = 0` assignment inside `_connect_websocket` and then
breaks; a failed dial increments `reconnect_attempts` and loops. -/
def handleDisconnectionLoop (delay maxA : Nat) (st : ReconnState) :
    List Bool → ReconnState × List Nat
  | [] => (st, [])
  | o :: os =>
    if st.isRunning && decide (st.reconnectAttempts < maxA) then
      let sleep := delay * 2 ^ st.reconnectAttempts
      if o then
        ({ st with reconnectAttempts := 0 }, [sleep])
      else
        let st' := { st with reconnectAttempts := st.reconnectAttempts + 1 }
        let r := handleDisconnectionLoop delay maxA st' os
        (r.1, sleep :: r.2)
    else (st, [])

/-- The backoff schedule the spec describes: starting from attempt counter
`a`, `n` consecutive sleeps of `delay * 2 ^ counter` with the counter
incremented after each one (used to state the C7 claim; the executable
source of truth is `handleDisconnectionLoop`). -/
def backoffSleeps (delay a : Nat) : Nat → List Nat
  | 0 => []
  | n + 1 => delay * 2 ^ a :: backoffSleeps delay (a + 1) n

/-- Full `_handle_disconnection` (client.py lines 541-567): return
immediately when the client is not running; otherwise run the reconnection
loop and, if `reconnect_attempts` has reached `max_reconnect_attempts`,
clear the run flag. -/
def handleDisconnection (delay maxA : Nat) (st : ReconnState)
    (outcomes : List Bool) : ReconnState × List Nat :=
  if !st.isRunning then (st, [])
  else
    let r := handleDisconnectionLoop delay maxA st outcomes
    (if r.1.reconnectAttempts ≥ maxA then { r.1 with isRunning := false } else r.1,
      r.2)

/-- The three counters named by the spec: `processed_messages`,
`dropped_messages` and `reconnect_attempts`. -/
structure Counters where
  processed : Nat
  dropped : Nat
  reconnectAttempts : Nat
  deriving DecidableEq, Repr

/-- Every operation of the client that writes one of the three counters:
the queue-full drop in `_websocket_listener` (line 270), a frame
processed by `_process_single_message`, the `reconnect_attempts = 0`
assignment on a successful `_connect_websocket` (line 221), and the
increment on a failed re-dial in `_handle_disconnection` (line 560). -/
inductive ClientOp where
  | queueFullDrop
  | processMessage (streams : List String) (nats : NatsStatus) (f : Frame)
  | connectWebsocketSuccess
  | reconnectAttemptFailure
  deriving Repr

/-- Effect of each counter-writing operation on the three counters,
transcribed from the lines cited at `ClientOp`. -/
def counterStep : ClientOp → Counters → Counters
  | .queueFullDrop, c => { c with dropped := c.dropped + 1 }
  | .processMessage streams nats f, c =>
    let r := processSingleMessage streams nats ⟨c.processed, c.dropped⟩ f
    { c with processed := r.1.processed, dropped := r.1.dropped }
  | .connectWebsocketSuccess, c => { c with reconnectAttempts := 0 }
  | .reconnectAttemptFailure, c =>
    { c with reconnectAttempts := c.reconnectAttempts + 1 }

/-- The SUBSCRIBE control message built at the top of `_connect_websocket`
(client.py lines 196-200): `method` and `params` fields plus
`id = int(time.time() * 1000)`, the wall-clock epoch milliseconds. -/
structure SubscribeMsg where
  method : String
  params : List String
  id : Nat
  deriving DecidableEq, Repr

/-- `subscribe_message` as built by `_connect_websocket`, with the current
epoch milliseconds passed explicitly. -/
def subscribeMessage (streams : List String) (nowMs : Nat) : SubscribeMsg :=
  { method := "SUBSCRIBE", params := streams, id := nowMs }

/-- The externally visible steps of a successful `_connect_websocket`
(client.py lines 192-225). -/
inductive ConnectAction where
  | dialWebSocket
  | sendControl (m : SubscribeMsg)
  | startListener
  deriving DecidableEq, Repr

/-- The action sequence of a successful `_connect_websocket`: dial through
the breaker, send the single SUBSCRIBE control message, start the
listener task. -/
def connectWebsocketActions (streams : List String) (nowMs : Nat) :
    List ConnectAction :=
  [.dialWebSocket, .sendControl (subscribeMessage streams nowMs), .startListener]

/-- Recognizer for control-message sends among connect actions. -/
def isSendControl : ConnectAction → Bool
  | .sendControl _ => true
  | _ => false

/-- The decimal digit character for `n < 10`. -/
def digitChar (n : Nat) : Char :=
  match n with
  | 0 => '0' | 1 => '1' | 2 => '2' | 3 => '3' | 4 => '4'
  | 5 => '5' | 6 => '6' | 7 => '7' | 8 => '8' | _ => '9'

/-- Numeric value of a decimal digit character. -/
def digitVal (c : Char) : Nat := c.toNat - 48

/-- Whether a character is a decimal digit. -/
def isDigitChar (c : Char) : Bool := 48 ≤ c.toNat && c.toNat ≤ 57

/-- Decimal digit characters of `n`, most significant first (the rendering
Python uses for datetime components). -/
def natDigits (n : Nat) : List Char :=
  if _h : n < 10 then [digitChar n]
  else natDigits (n / 10) ++ [digitChar (n % 10)]
termination_by n
decreasing_by exact Nat.div_lt_self (by omega) (by omega)

/-- Zero-pad the decimal rendering of `n` to width `w` (Python's
`%02d`-style formatting used by `datetime.isoformat`). -/
def padDigits (w n : Nat) : List Char :=
  List.replicate (w - (natDigits n).length) '0' ++ natDigits n

/-- Parse decimal digits with accumulator `a`, failing on any non-digit
(Python `int(...)` raising `ValueError`). -/
def parseDigitsFrom (a : Nat) : List Char → Option Nat
  | [] => some a
  | c :: cs =>
    if isDigitChar c then parseDigitsFrom (a * 10 + digitVal c) cs else none

/-- Parse a non-empty all-digit string to a `Nat` (Python `int(...)`,
which raises on the empty string). -/
def parseDigits (l : List Char) : Option Nat :=
  if l.isEmpty then none else parseDigitsFrom 0 l

/-- A Python `datetime` value as produced by `datetime.utcnow()`: a naive
UTC instant with microsecond precision. -/
structure DateTime where
  year : Nat
  month : Nat
  day : Nat
  hour : Nat
  minute : Nat
  second : Nat
  microsecond : Nat
  deriving DecidableEq, Repr

/-- The field ranges a Python `datetime` object always satisfies (the
`datetime` constructor enforces them; day-in-month validation is
abstracted to `1..31`). -/
def DateTime.Valid (d : DateTime) : Prop :=
  1 ≤ d.year ∧ d.year ≤ 9999 ∧ 1 ≤ d.month ∧ d.month ≤ 12 ∧
    1 ≤ d.day ∧ d.day ≤ 31 ∧ d.hour ≤ 23 ∧ d.minute ≤ 59 ∧
    d.second ≤ 59 ∧ d.microsecond ≤ 999999

instance (d : DateTime) : Decidable d.Valid := by
  unfold DateTime.Valid; infer_instance

/-- The `YYYY-MM-DD` date part of `datetime.isoformat()`. -/
def DateTime.dateChars (d : DateTime) : List Char :=
  padDigits 4 d.year ++ '-' :: (padDigits 2 d.month ++ '-' :: padDigits 2 d.day)

/-- The `SS[.ffffff]` second part of `datetime.isoformat()`; Python omits
the microsecond part when the microsecond is 0. -/
def DateTime.secfracChars (d : DateTime) : List Char :=
  padDigits 2 d.second ++
    (if d.microsecond = 0 then [] else '.' :: padDigits 6 d.microsecond)

/-- The `HH:MM:SS[.ffffff]` time part of `datetime.isoformat()`. -/
def DateTime.timeChars (d : DateTime) : List Char :=
  padDigits 2 d.hour ++ ':' :: (padDigits 2 d.minute ++ ':' :: d.secfracChars)

/-- `datetime.isoformat()` as a character list:
`YYYY-MM-DDTHH:MM:SS` with a `.ffffff` microsecond part that Python omits
when the microsecond is 0. -/
def DateTime.isoformatChars (d : DateTime) : List Char :=
  d.dateChars ++ 'T' :: d.timeChars

/-- `datetime.isoformat()` as a string. -/
def DateTime.isoformat (d : DateTime) : String :=
  String.mk d.isoformatChars

/-- Model of `datetime.fromisoformat` on the formats relevant here:
`YYYY-MM-DDTHH:MM:SS[.fff|.ffffff]`, with the datetime constructor's range
validation.  Any other shape fails (`ValueError`), modelled as `none`. -/
def fromisoChars (l : List Char) : Option DateTime :=
  match splitOnChar 'T' l with
  | [date, time] =>
    match splitOnChar '-' date, splitOnChar ':' time with
    | [ys, mos, ds], [hs, mins, sfs] =>
      let secUs : Option (List Char × Nat) :=
        match splitOnChar '.' sfs with
        | [ss] => some (ss, 0)
        | [ss, fs] =>
          if fs.length = 6 then (parseDigits fs).map (fun u => (ss, u))
          else if fs.length = 3 then (parseDigits fs).map (fun u => (ss, u * 1000))
          else none
        | _ => none
      match secUs with
      | none => none
      | some (ss, us) =>
        match parseDigits ys, parseDigits mos, parseDigits ds,
            parseDigits hs, parseDigits mins, parseDigits ss with
        | some y, some mo, some dd, some h, some mi, some s =>
          let cand : DateTime :=
            { year := y, month := mo, day := dd, hour := h, minute := mi
              second := s, microsecond := us }
          if cand.Valid then some cand else none
        | _, _, _, _, _, _ => none
    | _, _ => none
  | _ => none

/-- Drop one trailing `Z` if present (the first step of
`WebSocketMessage.parse_timestamp`, message.py lines 31-39). -/
def stripZ (l : List Char) : List Char :=
  if l.getLast? = some 'Z' then l.dropLast else l

/-- `WebSocketMessage.parse_timestamp` for string inputs: strip a trailing
`Z`, then `datetime.fromisoformat`. -/
def parse_timestamp (v : String) : Option DateTime :=
  fromisoChars (stripZ v.data)

/-- The fields of a `WebSocketMessage` (message.py lines 15-29), with the
payload type kept abstract and the creation instant (`default_factory`
`datetime.utcnow`) stored explicitly. -/
structure WsMessage (α : Type) where
  stream : String
  data : α
  timestamp : DateTime
  message_id : Option String

/-- The dictionary `WebSocketMessage.to_nats_message` returns (message.py
lines 41-54); `to_json` serializes exactly this dictionary with the
external orjson library, which is modelled as the identity on the
dictionary. -/
structure NatsDict (α : Type) where
  stream : String
  data : α
  timestamp : String
  message_id : Option String
  source : String
  version : String

/-- `WebSocketMessage.to_nats_message`: copy the envelope fields, render
the timestamp as `isoformat() + "Z"`, and add the constant `source` and
`version` fields. -/
def toNatsMessage {α : Type} (m : WsMessage α) : NatsDict α :=
  { stream := m.stream
    data := m.data
    timestamp := m.timestamp.isoformat ++ "Z"
    message_id := m.message_id
    source := "binance-websocket"
    version := "1.0" }

/-- The four classes `create_message` can instantiate (message.py lines
57-141): the three subclasses declare only documentation examples in
their `Config` and add no fields and no method overrides. -/
inductive MessageVariant where
  | trade
  | ticker
  | depth
  | base
  deriving DecidableEq, Repr

/-- The substring dispatch of `create_message` (message.py lines 161-182). -/
def messageVariantFor (stream : String) : MessageVariant :=
  if containsSubstr stream "@trade" then .trade
  else if containsSubstr stream "@ticker" then .ticker
  else if containsSubstr stream "@depth" then .depth
  else .base

/-- The value `create_message` returns: which class was instantiated plus
the envelope fields, which are identical across the four classes. -/
structure CreatedMessage (α : Type) where
  variant : MessageVariant
  msg : WsMessage α

/-- `create_message(stream, data, message_id)` with the creation instant
passed explicitly. -/
def create_message {α : Type} (stream : String) (data : α)
    (message_id : Option String) (now : DateTime) : CreatedMessage α :=
  { variant := messageVariantFor stream
    msg := { stream := stream, data := data, timestamp := now
             message_id := message_id } }

/-- Serialization of a `create_message` result: the subclasses inherit
`to_nats_message`/`to_json` unchanged from the base class, so every
variant serializes through `toNatsMessage` on its fields. -/
def CreatedMessage.toNats {α : Type} (cm : CreatedMessage α) : NatsDict α :=
  toNatsMessage cm.msg


/-!
Supporting lemmas: decimal rendering/parsing round trip, zero padding,
character-level splitting, and the datetime isoformat round trip.
-/

theorem digitChar_isDigit : ∀ r < 10, isDigitChar (digitChar r) = true := by decide

theorem digitVal_digitChar : ∀ r < 10, digitVal (digitChar r) = r := by decide

theorem natDigits_ne_nil (n : Nat) : natDigits n ≠ [] := by
  rw [natDigits]
  split
  · simp
  · simp

theorem natDigits_digits (n : Nat) : ∀ c ∈ natDigits n, isDigitChar c = true := by
  induction n using Nat.strong_induction_on with
  | _ n ih =>
    rw [natDigits]
    split
    · next h =>
      intro c hc
      rw [List.mem_singleton] at hc
      subst hc
      exact digitChar_isDigit n h
    · next h =>
      intro c hc
      rw [List.mem_append] at hc
      rcases hc with hc | hc
      · exact ih (n / 10) (Nat.div_lt_self (by omega) (by omega)) c hc
      · rw [List.mem_singleton] at hc
        subst hc
        exact digitChar_isDigit (n % 10) (Nat.mod_lt n (by omega))

theorem parseDigitsFrom_append (l1 l2 : List Char) : ∀ a,
    parseDigitsFrom a (l1 ++ l2) =
      (parseDigitsFrom a l1).bind (fun b => parseDigitsFrom b l2) := by
  induction l1 with
  | nil => intro a; simp [parseDigitsFrom]
  | cons c cs ih =>
    intro a
    by_cases h : isDigitChar c = true
    · simp [parseDigitsFrom, h, ih]
    · simp [parseDigitsFrom, h]

theorem parseDigitsFrom_natDigits (n : Nat) : ∀ a,
    parseDigitsFrom a (natDigits n) = some (a * 10 ^ (natDigits n).length + n) := by
  induction n using Nat.strong_induction_on with
  | _ n ih =>
    intro a
    rw [natDigits]
    split
    · next h =>
      simp [parseDigitsFrom, digitChar_isDigit n h, digitVal_digitChar n h]
    · next h =>
      rw [parseDigitsFrom_append]
      rw [ih (n / 10) (Nat.div_lt_self (by omega) (by omega)) a]
      have h10 : isDigitChar (digitChar (n % 10)) = true :=
        digitChar_isDigit _ (Nat.mod_lt n (by omega))
      have hv : digitVal (digitChar (n % 10)) = n % 10 :=
        digitVal_digitChar _ (Nat.mod_lt n (by omega))
      simp [parseDigitsFrom, h10, hv]
      have hDM : n / 10 * 10 + n % 10 = n := Nat.div_add_mod' n 10
      calc (a * 10 ^ (natDigits (n / 10)).length + n / 10) * 10 + n % 10
          = a * (10 ^ (natDigits (n / 10)).length * 10) + (n / 10 * 10 + n % 10) := by ring
        _ = a * 10 ^ ((natDigits (n / 10)).length + 1) + n := by rw [hDM, pow_succ]


theorem parseDigitsFrom_zeros (k : Nat) (l : List Char) :
    parseDigitsFrom 0 (List.replicate k '0' ++ l) = parseDigitsFrom 0 l := by
  induction k with
  | zero => simp
  | succ k ih =>
    rw [List.replicate_succ, List.cons_append]
    have h0 : isDigitChar '0' = true := by decide
    have hv : digitVal '0' = 0 := by decide
    simp [parseDigitsFrom, h0, hv, ih]

theorem parseDigits_padDigits (w n : Nat) : parseDigits (padDigits w n) = some n := by
  unfold parseDigits padDigits
  rw [if_neg]
  · rw [parseDigitsFrom_zeros, parseDigitsFrom_natDigits]
    simp
  · simp [List.isEmpty_iff, natDigits_ne_nil n]

theorem padDigits_digits (w n : Nat) : ∀ c ∈ padDigits w n, isDigitChar c = true := by
  intro c hc
  rw [padDigits, List.mem_append] at hc
  rcases hc with hc | hc
  · rw [List.mem_replicate] at hc
    rw [hc.2]
    decide
  · exact natDigits_digits n c hc

theorem natDigits_length_le (k : Nat) : ∀ n, n < 10 ^ (k + 1) →
    (natDigits n).length ≤ k + 1 := by
  induction k with
  | zero =>
    intro n h
    rw [pow_one] at h
    rw [natDigits]
    split
    · simp
    · omega
  | succ k ih =>
    intro n h
    rw [natDigits]
    split
    · simp
    · next hh =>
      have hdiv : n / 10 < 10 ^ (k + 1) := by
        rw [Nat.div_lt_iff_lt_mul (by omega : 0 < 10)]
        calc n < 10 ^ (k + 1 + 1) := h
          _ = 10 ^ (k + 1) * 10 := by rw [pow_succ]
      have := ih (n / 10) hdiv
      simp only [List.length_append, List.length_singleton]
      omega

theorem padDigits_length (w n : Nat) (h : (natDigits n).length ≤ w) :
    (padDigits w n).length = w := by
  simp only [padDigits, List.length_append, List.length_replicate]
  omega


theorem splitOnCharAux_no_sep (sep : Char) (a : List Char) (h : sep ∉ a) :
    ∀ acc, splitOnCharAux sep a acc = [acc.reverse ++ a] := by
  induction a with
  | nil => intro acc; simp [splitOnCharAux]
  | cons c cs ih =>
    intro acc
    have hc : ¬ c = sep := fun e => h (by simp [e])
    have hcs : sep ∉ cs := fun e => h (List.mem_cons_of_mem c e)
    simp only [splitOnCharAux, if_neg hc]
    rw [ih hcs (c :: acc)]
    simp

theorem splitOnCharAux_with_sep (sep : Char) (a b : List Char) (h : sep ∉ a) :
    ∀ acc, splitOnCharAux sep (a ++ sep :: b) acc =
      (acc.reverse ++ a) :: splitOnCharAux sep b [] := by
  induction a with
  | nil => intro acc; simp [splitOnCharAux]
  | cons c cs ih =>
    intro acc
    have hc : ¬ c = sep := fun e => h (by simp [e])
    have hcs : sep ∉ cs := fun e => h (List.mem_cons_of_mem c e)
    rw [List.cons_append]
    simp only [splitOnCharAux, if_neg hc]
    rw [ih hcs (c :: acc)]
    simp

theorem splitOnChar_single (sep : Char) (a : List Char) (ha : sep ∉ a) :
    splitOnChar sep a = [a] := by
  unfold splitOnChar
  rw [splitOnCharAux_no_sep sep a ha]
  simp

theorem splitOnChar_pair (sep : Char) (a b : List Char)
    (ha : sep ∉ a) (hb : sep ∉ b) :
    splitOnChar sep (a ++ sep :: b) = [a, b] := by
  unfold splitOnChar
  rw [splitOnCharAux_with_sep sep a b ha, splitOnCharAux_no_sep sep b hb]
  simp

theorem splitOnChar_triple (sep : Char) (a b c : List Char)
    (ha : sep ∉ a) (hb : sep ∉ b) (hc : sep ∉ c) :
    splitOnChar sep (a ++ sep :: (b ++ sep :: c)) = [a, b, c] := by
  unfold splitOnChar
  rw [splitOnCharAux_with_sep sep a _ ha, splitOnCharAux_with_sep sep b c hb,
    splitOnCharAux_no_sep sep c hc]
  simp

theorem not_mem_digits (l : List Char) (hl : ∀ c ∈ l, isDigitChar c = true)
    (x : Char) (hx : isDigitChar x = false) : x ∉ l := by
  intro hmem
  rw [hl x hmem] at hx
  simp at hx


theorem mem_dateChars (d : DateTime) (c : Char) (hc : c ∈ d.dateChars) :
    isDigitChar c = true ∨ c = '-' := by
  rw [DateTime.dateChars] at hc
  simp only [List.mem_append, List.mem_cons] at hc
  rcases hc with hc | hc | hc | hc | hc
  · exact Or.inl (padDigits_digits 4 d.year c hc)
  · exact Or.inr hc
  · exact Or.inl (padDigits_digits 2 d.month c hc)
  · exact Or.inr hc
  · exact Or.inl (padDigits_digits 2 d.day c hc)

theorem mem_secfracChars (d : DateTime) (c : Char) (hc : c ∈ d.secfracChars) :
    isDigitChar c = true ∨ c = '.' := by
  rw [DateTime.secfracChars] at hc
  simp only [List.mem_append] at hc
  rcases hc with hc | hc
  · exact Or.inl (padDigits_digits 2 d.second c hc)
  · by_cases h0 : d.microsecond = 0
    · rw [if_pos h0] at hc
      simp at hc
    · rw [if_neg h0] at hc
      rcases List.mem_cons.mp hc with hc | hc
      · exact Or.inr hc
      · exact Or.inl (padDigits_digits 6 d.microsecond c hc)

theorem mem_timeChars (d : DateTime) (c : Char) (hc : c ∈ d.timeChars) :
    isDigitChar c = true ∨ c = ':' ∨ c = '.' := by
  rw [DateTime.timeChars] at hc
  simp only [List.mem_append, List.mem_cons] at hc
  rcases hc with hc | hc | hc | hc | hc
  · exact Or.inl (padDigits_digits 2 d.hour c hc)
  · exact Or.inr (Or.inl hc)
  · exact Or.inl (padDigits_digits 2 d.minute c hc)
  · exact Or.inr (Or.inl hc)
  · rcases mem_secfracChars d c hc with h | h
    · exact Or.inl h
    · exact Or.inr (Or.inr h)

theorem T_not_mem_dateChars (d : DateTime) : 'T' ∉ d.dateChars := by
  intro hmem
  rcases mem_dateChars d 'T' hmem with h | h
  · simp [isDigitChar] at h
  · simp at h

theorem T_not_mem_timeChars (d : DateTime) : 'T' ∉ d.timeChars := by
  intro hmem
  rcases mem_timeChars d 'T' hmem with h | h | h
  · simp [isDigitChar] at h
  · simp at h
  · simp at h

theorem colon_not_mem_secfracChars (d : DateTime) : ':' ∉ d.secfracChars := by
  intro hmem
  rcases mem_secfracChars d ':' hmem with h | h
  · simp [isDigitChar] at h
  · simp at h


theorem fromiso_isoformat (d : DateTime) (hv : d.Valid) :
    fromisoChars d.isoformatChars = some d := by
  have hT : splitOnChar 'T' d.isoformatChars = [d.dateChars, d.timeChars] := by
    rw [DateTime.isoformatChars]
    exact splitOnChar_pair 'T' _ _ (T_not_mem_dateChars d) (T_not_mem_timeChars d)
  have hD : splitOnChar '-' d.dateChars =
      [padDigits 4 d.year, padDigits 2 d.month, padDigits 2 d.day] := by
    rw [DateTime.dateChars]
    exact splitOnChar_triple '-' _ _ _
      (not_mem_digits _ (padDigits_digits 4 d.year) '-' (by decide))
      (not_mem_digits _ (padDigits_digits 2 d.month) '-' (by decide))
      (not_mem_digits _ (padDigits_digits 2 d.day) '-' (by decide))
  have hC : splitOnChar ':' d.timeChars =
      [padDigits 2 d.hour, padDigits 2 d.minute, d.secfracChars] := by
    rw [DateTime.timeChars]
    exact splitOnChar_triple ':' _ _ _
      (not_mem_digits _ (padDigits_digits 2 d.hour) ':' (by decide))
      (not_mem_digits _ (padDigits_digits 2 d.minute) ':' (by decide))
      (colon_not_mem_secfracChars d)
  by_cases h0 : d.microsecond = 0
  · have hsec : d.secfracChars = padDigits 2 d.second := by
      rw [DateTime.secfracChars, if_pos h0]
      simp
    have hP : splitOnChar '.' d.secfracChars = [padDigits 2 d.second] := by
      rw [hsec]
      exact splitOnChar_single '.' _
        (not_mem_digits _ (padDigits_digits 2 d.second) '.' (by decide))
    unfold fromisoChars
    rw [hT]
    simp only [hD, hC, hP, parseDigits_padDigits]
    rw [if_pos]
    · rw [← h0]
    · rw [← h0]
      exact hv
  · have hus6 : (padDigits 6 d.microsecond).length = 6 := by
      apply padDigits_length
      apply natDigits_length_le 5
      have : d.microsecond ≤ 999999 := hv.2.2.2.2.2.2.2.2.2
      omega
    have hP : splitOnChar '.' d.secfracChars =
        [padDigits 2 d.second, padDigits 6 d.microsecond] := by
      rw [DateTime.secfracChars, if_neg h0]
      exact splitOnChar_pair '.' _ _
        (not_mem_digits _ (padDigits_digits 2 d.second) '.' (by decide))
        (not_mem_digits _ (padDigits_digits 6 d.microsecond) '.' (by decide))
    unfold fromisoChars
    rw [hT]
    simp only [hD, hC, hP, hus6, parseDigits_padDigits, Option.map_some', reduceIte]
    rw [if_pos hv]


theorem parse_timestamp_round (d : DateTime) (hv : d.Valid) :
    parse_timestamp (d.isoformat ++ "Z") = some d := by
  have hdata : (d.isoformat ++ "Z").data = d.isoformatChars ++ ['Z'] := rfl
  rw [parse_timestamp, hdata, stripZ]
  rw [if_pos (by simp)]
  rw [List.dropLast_concat]
  exact fromiso_isoformat d hv



/-!
Claim theorems, counterexamples and witnesses.
-/

/-- C1 counterexample: a trade frame that classifies to a non-null stream
name, processed while the NATS handle is present and open but the publish
call raises.  The claim requires `dropped_total` to be incremented by
exactly one for this frame; the code leaves both counters unchanged (the
publish error is only logged, client.py lines 374-375). -/
theorem processSingleMessage_publish_raise_counterexample :
    (determineStreamName ["btcusdt@trade"]
        ⟨some "trade", some "BTCUSDT", false, false, false⟩).isSome = true ∧
      processSingleMessage ["btcusdt@trade"] .openRaises ⟨0, 0⟩
          ⟨some "trade", some "BTCUSDT", false, false, false⟩ =
        (⟨0, 0⟩, .publishFailed) := by
  constructor
  · rfl
  · rfl

/-- C1 (amended): for every frame that classifies to a non-null stream
name, the processor's outcome trichotomy is: broker absent or closed →
counted drop (`dropped_total` incremented by one) and the worker
continues; publish raises → the error is logged and neither counter
changes; publish succeeds → `processed_total` incremented by one.  The
original claim's "publish raises → counted drop" branch is corrected, so
a frame can also end in an uncounted logged publish-failure. -/
theorem processSingleMessage_outcomes (streams : List String)
    (nats : NatsStatus) (st : ProcState) (f : Frame)
    (h : (determineStreamName streams f).isSome = true) :
    ((nats = .absent ∨ nats = .closed) →
        processSingleMessage streams nats st f =
          ({ st with dropped := st.dropped + 1 }, .droppedNoBroker)) ∧
      (nats = .openRaises →
        processSingleMessage streams nats st f = (st, .publishFailed)) ∧
      (nats = .openOk →
        processSingleMessage streams nats st f =
          ({ st with processed := st.processed + 1 }, .published)) := by
  rw [Option.isSome_iff_exists] at h
  obtain ⟨name, hname⟩ := h
  unfold processSingleMessage
  rw [hname]
  refine ⟨?_, ?_, ?_⟩
  · rintro (rfl | rfl) <;> rfl
  · rintro rfl; rfl
  · rintro rfl; rfl

/-- Witness for C1: concrete evaluation with a closed NATS handle. -/
theorem processSingleMessage_outcomes_witness :
    processSingleMessage ["btcusdt@trade"] .closed ⟨3, 4⟩
        ⟨some "trade", some "BTCUSDT", false, false, false⟩ =
      (⟨3, 5⟩, .droppedNoBroker) :=
  (processSingleMessage_outcomes ["btcusdt@trade"] .closed ⟨3, 4⟩
      ⟨some "trade", some "BTCUSDT", false, false, false⟩ (by rfl)).1
    (Or.inr rfl)

theorem preCall_failureThreshold (b : Breaker) (now : Int) :
    (preCall b now).1.failureThreshold = b.failureThreshold := by
  unfold preCall
  split
  · split <;> rfl
  · rfl

theorem onSuccess_failureThreshold (b : Breaker) :
    (onSuccess b).failureThreshold = b.failureThreshold := rfl

theorem onFailure_failureThreshold (b : Breaker) (now : Int) :
    (onFailure b now).failureThreshold = b.failureThreshold := by
  unfold onFailure
  split <;> rfl

theorem breakerCall_failureThreshold (b : Breaker) (now : Int)
    (o : CallOutcome) :
    (breakerCall b now o).failureThreshold = b.failureThreshold := by
  unfold breakerCall
  split
  · cases o with
    | success => rw [onSuccess_failureThreshold, preCall_failureThreshold]
    | matchedFailure => rw [onFailure_failureThreshold, preCall_failureThreshold]
    | unmatchedFailure => exact preCall_failureThreshold b now
  · exact preCall_failureThreshold b now

theorem runCalls_failureThreshold (events : List (Int × CallOutcome)) :
    ∀ b : Breaker, (runCalls b events).failureThreshold = b.failureThreshold := by
  induction events with
  | nil => intro b; rfl
  | cons ev evs ih =>
    intro b
    unfold runCalls
    rw [List.foldl_cons]
    have h := ih (breakerCall b ev.1 ev.2)
    unfold runCalls at h
    rw [h, breakerCall_failureThreshold]

theorem onFailure_opens_of_nonpos (b : Breaker) (now : Int)
    (h : b.failureThreshold ≤ 0) : (onFailure b now).state = .opened := by
  unfold onFailure
  rw [if_pos (by push_cast; omega)]

/-- C2 counterexample: a breaker constructed with `failure_threshold = 0`
reaches OPEN after a single matched failure (the first `_on_failure` sets
`failure_count = 1 ≥ 0 = failure_threshold`), so OPEN is reachable and
threshold 0 does not behave as "never trip". -/
theorem breaker_threshold_zero_counterexample :
    (breakerCall (mkBreaker 0 60) 100 .matchedFailure).state = .opened := by
  rfl

/-- C2 (amended): for a breaker constructed with `failure_threshold = 0`,
after any sequence of call invocations, the next call whose OPEN gate lets
the wrapped callable run and whose callable fails with a matched exception
leaves the breaker OPEN: threshold 0 trips on the first matched failure
(it behaves like threshold 1, not like "never trip"). -/
theorem breaker_threshold_zero_trips (r : Int)
    (events : List (Int × CallOutcome)) (t : Int)
    (hgate : (preCall (runCalls (mkBreaker 0 r) events) t).2 = true) :
    (breakerCall (runCalls (mkBreaker 0 r) events) t .matchedFailure).state =
      .opened := by
  unfold breakerCall
  rw [if_pos hgate]
  exact onFailure_opens_of_nonpos _ t
    (by rw [preCall_failureThreshold, runCalls_failureThreshold]; rfl)

/-- Witness for C2 (amended): the empty call history followed by one
matched failure. -/
theorem breaker_threshold_zero_trips_witness :
    (breakerCall (runCalls (mkBreaker 0 60) []) 100 .matchedFailure).state =
      .opened :=
  breaker_threshold_zero_trips 60 [] 100 (by rfl)

/-- C3 counterexample: with streams `["ethusdt@trade",
"btcusdt@depth20@100ms"]` the bridge is subscribed to exactly one
depth-like stream, whose prefix is `btcusdt`, yet a symbol-less
depth-snapshot frame classifies to `ethusdt@depth20@100ms`: the code
takes the prefix of the FIRST configured stream, not the prefix of the
unique depth-like subscription, and performs no "exactly one depth-like
stream" check. -/
theorem determineStreamName_depth_infer_counterexample :
    (["ethusdt@trade", "btcusdt@depth20@100ms"].filter depthLike) =
        ["btcusdt@depth20@100ms"] ∧
      determineStreamName ["ethusdt@trade", "btcusdt@depth20@100ms"]
          ⟨none, none, true, true, true⟩ =
        some "ethusdt@depth20@100ms" := by
  constructor
  · decide
  · decide

/-- C3 (amended): for every frame carrying the depth-snapshot signature
but no symbol field, the classifier infers the symbol from the FIRST
configured stream whenever the stream list is non-empty and its first
element contains an at-sign — regardless of how many streams are
configured or whether they are depth-like — returning that stream's
prefix followed by `@depth20@100ms`; in particular, with streams
`["btcusdt@depth20@100ms"]` the example frame classifies to
`btcusdt@depth20@100ms` (witness below). -/
theorem determineStreamName_depth_infers_first_stream (first : String)
    (rest : List String) (f : Frame) (hL : f.hasLastUpdateId = true)
    (hB : f.hasBids = true) (hA : f.hasAsks = true) (hs : f.s = none)
    (hat : strContainsChar first '@' = true) :
    determineStreamName (first :: rest) f =
      some ((strSplitAt first).headD "" ++ "@depth20@100ms") := by
  unfold determineStreamName
  rw [hL, hB, hA, hs]
  simp [hat]

/-- Witness for C3 (amended): the spec's own example — a single depth
subscription and the symbol-less snapshot frame. -/
theorem determineStreamName_depth_infers_first_stream_witness :
    determineStreamName ["btcusdt@depth20@100ms"]
        ⟨none, none, true, true, true⟩ =
      some "btcusdt@depth20@100ms" := by
  have h := determineStreamName_depth_infers_first_stream
    "btcusdt@depth20@100ms" [] ⟨none, none, true, true, true⟩
    rfl rfl rfl rfl (by decide)
  exact h.trans (by decide)

/-- C4 counterexample: `start` invoked on a client whose run flag is
already true does not short-circuit — it still dials NATS, launches the
processor tasks, re-dials the WebSocket and launches the ping task
(heartbeat disabled here, two processors). -/
theorem startClient_double_start_counterexample :
    (startClient false 2 ⟨true⟩).2 =
      [.connectNats, .launchProcessor 0, .launchProcessor 1,
        .connectWebSocket, .launchPing] := by
  rfl

/-- C4 (amended): `start` performs no double-start guard at all: whatever
the current value of the run flag, it sets the flag to true and performs
the same full action sequence — dialing the broker, dialing the
WebSocket — so invoking it while the run flag is already true re-dials
both and launches additional tasks. -/
theorem startClient_no_double_start_guard (hb : Bool) (n : Nat)
    (st : ClientState) :
    (startClient hb n st).1.isRunning = true ∧
      StartAction.connectNats ∈ (startClient hb n st).2 ∧
      StartAction.connectWebSocket ∈ (startClient hb n st).2 ∧
      (startClient hb n st).2 = (startClient hb n ⟨false⟩).2 := by
  refine ⟨rfl, ?_, ?_, rfl⟩
  · simp [startClient]
  · simp [startClient]

/-- C5 counterexample: the frame with event-type field PRESENT but empty
and symbol field present (no depth signature) classifies to null, whereas
the claim's "otherwise" clause — both fields not absent — requires the
mapped stream name `btcusdt@`. -/
theorem determineStreamName_empty_event_counterexample :
    (⟨some "", some "BTCUSDT", false, false, false⟩ : Frame).e ≠ none ∧
      (⟨some "", some "BTCUSDT", false, false, false⟩ : Frame).s ≠ none ∧
      determineStreamName [] ⟨some "", some "BTCUSDT", false, false, false⟩ =
        none := by
  refine ⟨by simp, by simp, by decide⟩

/-- C5 (amended): for every frame without the depth-snapshot signature,
the classifier returns null when the event-type field or the symbol field
is absent OR EMPTY (Python `data.get(..., "")` plus truthiness conflates
the two); when both are present and non-empty it returns the lowercased
symbol concatenated with the suffix `trade`→`@trade`,
`24hrTicker`→`@ticker`, `depthUpdate`→`@depth20@100ms`,
`markPriceUpdate`→`@markPrice@1s`, `fundingRate`→`@fundingRate@1s`, any
other event type → `@` followed by the event type. -/
theorem determineStreamName_event_map (streams : List String) (f : Frame)
    (hnd : (f.hasLastUpdateId && f.hasBids && f.hasAsks) = false) :
    ((f.e.getD "" = "" ∨ f.s.getD "" = "") →
        determineStreamName streams f = none) ∧
      (∀ e s, f.e = some e → f.s = some s → e ≠ "" → s ≠ "" →
        determineStreamName streams f =
          some (strToLower s ++ eventSuffix e)) := by
  constructor
  · intro h
    unfold determineStreamName
    rw [hnd]
    rcases h with h | h <;> simp [h]
  · intro e s he hs he0 hs0
    unfold determineStreamName eventSuffix
    rw [hnd, he, hs]
    simp only [Option.getD_some, Bool.false_eq_true, if_false]
    have hc : (decide (e = "") || decide (s = "")) = false := by
      simp [he0, hs0]
    rw [hc]
    simp only [Bool.false_eq_true, if_false]
    split_ifs <;> simp [String.append_assoc]

/-- Witness for C5 (amended): a markPriceUpdate frame for BTCUSDT maps to
`btcusdt@markPrice@1s`. -/
theorem determineStreamName_event_map_witness :
    determineStreamName []
        ⟨some "markPriceUpdate", some "BTCUSDT", false, false, false⟩ =
      some "btcusdt@markPrice@1s" := by
  have h := (determineStreamName_event_map []
      ⟨some "markPriceUpdate", some "BTCUSDT", false, false, false⟩ rfl).2
    "markPriceUpdate" "BTCUSDT" rfl rfl (by decide) (by decide)
  exact h.trans (by decide)

/-- C6: envelope round trip.  The dictionary `to_nats_message` builds (and
`to_json` serializes unchanged through the external orjson library) has
`stream`, `data` and `message_id` equal to the envelope's, the constant
`source` `"binance-websocket"` and `version` `"1.0"`, and a timestamp
string — ISO-8601 with trailing `Z` — that `parse_timestamp` parses back
to the envelope's original creation instant. -/
theorem toNatsMessage_round_trip {α : Type} (m : WsMessage α)
    (hv : m.timestamp.Valid) :
    (toNatsMessage m).stream = m.stream ∧
      (toNatsMessage m).data = m.data ∧
      (toNatsMessage m).message_id = m.message_id ∧
      (toNatsMessage m).source = "binance-websocket" ∧
      (toNatsMessage m).version = "1.0" ∧
      parse_timestamp (toNatsMessage m).timestamp = some m.timestamp := by
  refine ⟨rfl, rfl, rfl, rfl, rfl, ?_⟩
  exact parse_timestamp_round m.timestamp hv

/-- Witness for C6: a concrete trade envelope created at
2025-01-01T12:00:00.123456. -/
theorem toNatsMessage_round_trip_witness :
    (toNatsMessage
          (⟨"btcusdt@trade", (42 : Nat), ⟨2025, 1, 1, 12, 0, 0, 123456⟩,
            some "m-1"⟩ : WsMessage Nat)).stream = "btcusdt@trade" ∧
      (toNatsMessage
          (⟨"btcusdt@trade", (42 : Nat), ⟨2025, 1, 1, 12, 0, 0, 123456⟩,
            some "m-1"⟩ : WsMessage Nat)).data = 42 ∧
      (toNatsMessage
          (⟨"btcusdt@trade", (42 : Nat), ⟨2025, 1, 1, 12, 0, 0, 123456⟩,
            some "m-1"⟩ : WsMessage Nat)).message_id = some "m-1" ∧
      (toNatsMessage
          (⟨"btcusdt@trade", (42 : Nat), ⟨2025, 1, 1, 12, 0, 0, 123456⟩,
            some "m-1"⟩ : WsMessage Nat)).source = "binance-websocket" ∧
      (toNatsMessage
          (⟨"btcusdt@trade", (42 : Nat), ⟨2025, 1, 1, 12, 0, 0, 123456⟩,
            some "m-1"⟩ : WsMessage Nat)).version = "1.0" ∧
      parse_timestamp
          (toNatsMessage
            (⟨"btcusdt@trade", (42 : Nat), ⟨2025, 1, 1, 12, 0, 0, 123456⟩,
              some "m-1"⟩ : WsMessage Nat)).timestamp =
        some ⟨2025, 1, 1, 12, 0, 0, 123456⟩ :=
  toNatsMessage_round_trip _ (by decide)

theorem backoffSleeps_eq_range_map (delay : Nat) (n : Nat) : ∀ a,
    backoffSleeps delay a n =
      (List.range n).map (fun i => delay * 2 ^ (a + i)) := by
  induction n with
  | zero => intro a; simp [backoffSleeps]
  | succ n ih =>
    intro a
    rw [backoffSleeps, ih (a + 1), List.range_succ_eq_map, List.map_cons,
      List.map_map]
    congr 1
    simp
    intro i _
    exact Or.inl (by omega)

theorem handleDisconnectionLoop_backoff (delay maxA k : Nat) :
    ∀ a, a + k < maxA → ∀ rest : List Bool,
      handleDisconnectionLoop delay maxA ⟨true, a⟩
          (List.replicate k false ++ true :: rest) =
        (⟨true, 0⟩, backoffSleeps delay a (k + 1)) := by
  induction k with
  | zero =>
    intro a ha rest
    have ha' : a < maxA := by omega
    simp [handleDisconnectionLoop, ha', backoffSleeps]
  | succ k ih =>
    intro a ha rest
    have ha' : a < maxA := by omega
    rw [List.replicate_succ, List.cons_append]
    simp [handleDisconnectionLoop, ha', ih (a + 1) (by omega) rest,
      backoffSleeps]

/-- C7: during a disconnect episode that starts with `reconnect_attempts
= a` and sees `k` failed re-dial attempts followed by a successful one —
all within the attempt budget — the supervisor sleeps exactly
`reconnect_delay * 2 ^ (a + i)` before the i-th re-dial attempt (that is,
with `reconnect_attempts` as it stands when the attempt begins:
incremented only on failures), and on the successful re-dial resets
`reconnect_attempts` to 0 and exits the loop (further scheduled outcomes
`rest` are never consumed, and the client keeps running). -/
theorem handleDisconnection_backoff (delay maxA a k : Nat)
    (rest : List Bool) (hk : a + k < maxA) :
    handleDisconnection delay maxA ⟨true, a⟩
        (List.replicate k false ++ true :: rest) =
      (⟨true, 0⟩, (List.range (k + 1)).map (fun i => delay * 2 ^ (a + i))) := by
  have hloop := handleDisconnectionLoop_backoff delay maxA k a hk rest
  have hmax : ¬ (0 ≥ maxA) := by omega
  simp [handleDisconnection, hloop, hmax, backoffSleeps_eq_range_map]

/-- Witness for C7: base delay 1s, budget 3, one failure then success —
sleeps 1s then 2s, final attempt counter 0, client still running. -/
theorem handleDisconnection_backoff_witness :
    handleDisconnection 1 3 ⟨true, 0⟩ [false, true] = (⟨true, 0⟩, [1, 2]) := by
  have h := handleDisconnection_backoff 1 3 0 1 [] (by decide)
  exact h.trans (by decide)

/-- C8 counterexample: a successful `_connect_websocket` executed while
`reconnect_attempts = 3` resets the counter to 0 — a strict decrease, so
`reconnect_attempts` is not monotonically non-decreasing. -/
theorem counterStep_reset_counterexample :
    (counterStep .connectWebsocketSuccess ⟨5, 2, 3⟩).reconnectAttempts <
      (⟨5, 2, 3⟩ : Counters).reconnectAttempts := by
  decide

/-- C8 (amended): under every counter-writing operation of the client,
`processed_total` and `dropped_total` never decrease; `reconnect_attempts`
also never decreases except under the successful-connect operation, which
resets it to 0 (client.py line 221). -/
theorem counterStep_monotone (op : ClientOp) (c : Counters) :
    c.processed ≤ (counterStep op c).processed ∧
      c.dropped ≤ (counterStep op c).dropped ∧
      (op = .connectWebsocketSuccess ∨
        c.reconnectAttempts ≤ (counterStep op c).reconnectAttempts) := by
  cases op with
  | queueFullDrop =>
    refine ⟨?_, ?_, Or.inr ?_⟩ <;> simp [counterStep]
  | processMessage streams nats f =>
    refine ⟨?_, ?_, Or.inr ?_⟩ <;>
      simp only [counterStep, processSingleMessage] <;>
        cases h : determineStreamName streams f <;>
          cases nats <;> simp
  | connectWebsocketSuccess =>
    exact ⟨le_refl _, le_refl _, Or.inl rfl⟩
  | reconnectAttemptFailure =>
    refine ⟨?_, ?_, Or.inr ?_⟩ <;> simp [counterStep]

/-- C9 counterexample: at wall-clock time 2025-10-12T00:00:00Z the id the
code generates is 1760227200000 (epoch milliseconds), which does not fit
in a 32-bit integer (it exceeds 2^32, hence also 2^31). -/
theorem subscribeMessage_id_32bit_counterexample :
    (subscribeMessage ["btcusdt@trade"] 1760227200000).id = 1760227200000 ∧
      ¬ ((subscribeMessage ["btcusdt@trade"] 1760227200000).id < 2 ^ 32) := by
  constructor
  · rfl
  · decide

/-- C9 (amended): on every successful WebSocket connect the client sends
exactly one SUBSCRIBE control message, immediately after the dial and
before starting the listener, with method `"SUBSCRIBE"`, params the
configured streams, and id equal to the current wall-clock epoch
milliseconds — a value that does not in general fit in a 32-bit integer
(for any time from 1970-02-19 on it exceeds 2^32). -/
theorem connectWebsocket_one_subscribe (streams : List String)
    (nowMs : Nat) :
    (connectWebsocketActions streams nowMs).filter isSendControl =
        [.sendControl { method := "SUBSCRIBE", params := streams
                        id := nowMs }] ∧
      connectWebsocketActions streams nowMs =
        [.dialWebSocket,
          .sendControl { method := "SUBSCRIBE", params := streams
                         id := nowMs },
          .startListener] ∧
      (subscribeMessage streams nowMs).id = nowMs := by
  refine ⟨?_, rfl, rfl⟩
  rfl

/-- C10: for every stream string, payload and message id, the envelope
built by `create_message` serializes identically to a directly
constructed base `WebSocketMessage` with the same fields and creation
instant: the subclass chosen by the `@trade`/`@ticker`/`@depth` substring
dispatch adds no fields and never changes the serialized envelope — even
though the dispatch itself genuinely varies across streams. -/
theorem create_message_serialization_eq {α : Type} (s : String) (d : α)
    (m : Option String) (t : DateTime) :
    (create_message s d m t).toNats =
        toNatsMessage ({ stream := s, data := d, timestamp := t
                         message_id := m } : WsMessage α) ∧
      messageVariantFor "btcusdt@trade" = .trade ∧
      messageVariantFor "ethusdt@ticker" = .ticker ∧
      messageVariantFor "btcusdt@depth20@100ms" = .depth ∧
      messageVariantFor "btcusdt@kline" = .base := by
  refine ⟨rfl, ?_, ?_, ?_, ?_⟩ <;> decide

end SocketClient
